import Mathlib

/-!
Shallow embedding of the sargam terminal instrument (src/main.py):
the recording engine (`RecordingManager`), the playback scheduler
(the loop spawned by `playback_recording`), the persistence adapter
(`save_recording` / `load_recording` over a modelled file store), and the
interaction state machine (the keyboard handlers of `MusicInstrument`).

Time instants and durations are modelled as integers (`Int`, think
clock ticks at any fixed sub-millisecond resolution); the wall clock
(`time.time()`) is passed explicitly to every operation that reads it.  The file system under `recordings/` is modelled as an association
list from file names to saved JSON records.  Sound and thread spawning
are modelled as emitted effects.
-/

namespace Sargam

/-- A saved JSON record, with a `timestamp` field and a `notes` field, as
written by `save_recording` (src/main.py lines 100-106). -/
structure SavedRecording where
  timestamp : String
  notes : List (String × Int)
deriving DecidableEq

/-- The `recordings/` directory: file stem ↦ parsed JSON content. -/
def FileStore : Type := List (String × SavedRecording)

instance : DecidableEq FileStore := by
  unfold FileStore
  infer_instance

/-- Directory lookup: does a file with this stem exist, and its content. -/
def storeGet (st : FileStore) (name : String) : Option SavedRecording :=
  (st.find? (fun kv => kv.1 == name)).map (fun kv => kv.2)

/-- Writing a file: overwrites an existing entry of the same name, else
appends. -/
def storeSet (st : FileStore) (name : String) (v : SavedRecording) : FileStore :=
  match st with
  | [] => [(name, v)]
  | kv :: rest =>
      if kv.1 == name then (name, v) :: rest
      else kv :: storeSet rest name v

/-- State of `RecordingManager` (src/main.py lines 71-78): the in-memory
buffer `current_recording`, the session start instant and the active
flag. -/
structure RecordingManager where
  current_recording : List (String × Int)
  recording_start_time : Option Int
  is_recording : Bool
deriving DecidableEq

/-- `RecordingManager.__init__`: empty buffer, no start time, inactive. -/
def RecordingManager.init : RecordingManager :=
  { current_recording := [], recording_start_time := none, is_recording := false }

/-- `start_recording` (lines 80-83): unconditionally clears the buffer,
records the current instant and sets the active flag. -/
def start_recording (s : RecordingManager) (now : Int) : RecordingManager :=
  { s with current_recording := [],
           recording_start_time := some now,
           is_recording := true }

/-- `stop_recording` (lines 85-87): clears the active flag and returns the
number of buffered events; buffer and start time are left untouched. -/
def stop_recording (s : RecordingManager) : RecordingManager × Nat :=
  ({ s with is_recording := false }, s.current_recording.length)

/-- `add_note` (lines 89-92).  Python guard is
`if self.is_recording and self.recording_start_time:` — the second
conjunct is Python truthiness, so a start time of `None` or `0.0` also
makes this a no-op. -/
def add_note (s : RecordingManager) (note : String) (now : Int) : RecordingManager :=
  match s.recording_start_time with
  | none => s
  | some t0 =>
      if s.is_recording ∧ t0 ≠ 0 then
        { s with current_recording := s.current_recording ++ [(note, now - t0)] }
      else s

/-- `save_recording` (lines 94-110): refuses an empty buffer (returns
`False`), otherwise writes a record with `timestamp := ts` and
`notes := buffer` under
`filename` and returns `True`.  The I/O happy path is modelled; an OS
write error (the `except` branch) is not. -/
def save_recording (s : RecordingManager) (st : FileStore) (filename ts : String) :
    Bool × FileStore :=
  if s.current_recording = [] then (false, st)
  else (true, storeSet st filename { timestamp := ts, notes := s.current_recording })

/-- `load_recording` (lines 112-125): returns `False` when no such file
exists, otherwise replaces `current_recording` with the `notes` of the file
and returns `True`. -/
def load_recording (s : RecordingManager) (st : FileStore) (filename : String) :
    Bool × RecordingManager :=
  match storeGet st filename with
  | none => (false, s)
  | some rec => (true, { s with current_recording := rec.notes })

/-- `get_available_recordings` (lines 127-128): the stems of the files in
the directory. -/
def get_available_recordings (st : FileStore) : List String :=
  st.map (fun kv => kv.1)

/-!
## Playback scheduler

`playback_recording` (lines 130-146) spawns a daemon thread whose body is

    start_time = time.time()
    for note, timestamp in self.current_recording:
        target_time = start_time + timestamp
        current_time = time.time()
        if target_time > current_time:
            time.sleep(target_time - current_time)
        sound_manager.play_note(note)
        if callback: callback(note)

We model one run of that loop.  `now` is the value `time.time()` returns
at the top of an iteration; between the trigger of one event and the next
clock read of the next iteration an arbitrary non-negative processing
delay elapses,
supplied per event alongside the `(note, offset)` pair.
-/

/-- One observable action of the playback thread, stamped with the instant
it happens. -/
inductive PlayAction where
  | trigger (note : String) (time : Int)
  | progress (note : String) (time : Int)
deriving DecidableEq

/-- The timed trace of the playback loop: `cb` says whether a progress
callback was supplied; each list element carries its event and the
processing delay consumed after its trigger (and callback) before the
next clock read. -/
def playbackRun (start : Int) (cb : Bool) :
    Int → List ((String × Int) × Int) → List PlayAction
  | _, [] => []
  | now, (ev, d) :: rest =>
      let target := start + ev.2
      let fire := if now < target then target else now
      (PlayAction.trigger ev.1 fire ::
        (if cb then [PlayAction.progress ev.1 fire] else [])) ++
      playbackRun start cb (fire + d) rest

/-- Notes of the trigger actions of a trace, in order. -/
def triggerNotes (tr : List PlayAction) : List String :=
  tr.filterMap (fun a => match a with
    | PlayAction.trigger n _ => some n
    | PlayAction.progress _ _ => none)

/-- Instants of the trigger actions of a trace, in order. -/
def triggerTimes (tr : List PlayAction) : List Int :=
  tr.filterMap (fun a => match a with
    | PlayAction.trigger _ t => some t
    | PlayAction.progress _ _ => none)

/-- Notes of the progress-callback actions of a trace, in order. -/
def progressNotes (tr : List PlayAction) : List String :=
  tr.filterMap (fun a => match a with
    | PlayAction.trigger _ _ => none
    | PlayAction.progress n _ => some n)

/-!
## Interaction state machine

`MusicUI` holds the mode string, last-note display, status and the
recording list shown in the selector; `MusicInstrument` wires it to the
`RecordingManager` and the keyboard handlers (src/main.py lines 149-433).
Sound playback and thread spawning are recorded as `Effect`s.
-/

/-- An outwardly visible side effect of a handler. -/
inductive Effect where
  | sound (note : String)
  | playbackStarted (events : List (String × Int))
deriving DecidableEq

/-- `self.key_to_note` (lines 157-166): key ↦ (note id, display name). -/
def key_to_note : List (String × String × String) :=
  [("a", "sa", "Sa"), ("s", "re", "Re"), ("d", "ga", "Ga"), ("f", "ma", "Ma"),
   ("g", "pa", "Pa"), ("h", "dha", "Dha"), ("j", "ni", "Ni"),
   ("k", "sa_high", "Sa\x27")]

/-- State of `MusicUI` (lines 149-154).  `available_recordings` is only
created on first `set_available_recordings` in Python; it starts here as
the empty list. -/
structure MusicUI where
  current_mode : String
  last_played_note : String
  status_message : String
  available_recordings : List String
deriving DecidableEq

/-- `MusicUI.__init__`. -/
def MusicUI.init : MusicUI :=
  { current_mode := "menu", last_played_note := "",
    status_message := "Welcome to the Indian Classical Music Instrument!",
    available_recordings := [] }

/-- `update_last_note` (lines 286-290): only notes present in the catalog
update the display, formatted as `Display (note_id)`. -/
def update_last_note (ui : MusicUI) (note : String) : MusicUI :=
  match key_to_note.find? (fun kv => kv.2.1 == note) with
  | none => ui
  | some kv =>
      { ui with last_played_note := kv.2.2 ++ " (" ++ note ++ ")" }

/-- State of `MusicInstrument` (lines 301-307), minus the sound manager
(pure effect emitter) and the file system (threaded separately). -/
structure MusicInstrument where
  recording_manager : RecordingManager
  ui : MusicUI
  running : Bool
  selection_mode_recordings : List String
deriving DecidableEq

/-- `MusicInstrument.__init__`. -/
def MusicInstrument.init : MusicInstrument :=
  { recording_manager := RecordingManager.init, ui := MusicUI.init,
    running := true, selection_mode_recordings := [] }

/-- Effects of `playback_recording` at spawn time (lines 130-146): no
thread is spawned for an empty buffer; otherwise a thread over a snapshot
of the buffer starts. -/
def playback_spawn (s : RecordingManager) : List Effect :=
  if s.current_recording = [] then []
  else [Effect.playbackStarted s.current_recording]

/-- `_on_note_key` (lines 334-344): plays the sound, updates the last-note
display, and appends to the recording buffer when a session is active.
Never inspects `current_mode`. -/
def on_note_key (s : MusicInstrument) (key : String) (now : Int) :
    MusicInstrument × List Effect :=
  match key_to_note.find? (fun kv => kv.1 == key) with
  | none => (s, [])
  | some kv =>
      if s.recording_manager.is_recording then
        ({ s with ui := update_last_note s.ui kv.2.1,
                  recording_manager := add_note s.recording_manager kv.2.1 now },
         [Effect.sound kv.2.1])
      else
        ({ s with ui := update_last_note s.ui kv.2.1 }, [Effect.sound kv.2.1])

/-- `_on_escape` (lines 346-355): in any non-menu mode, stops an active
recording session (setting a cancellation status that the following
line immediately overwrites), returns to the menu and clears the pending
selection list. -/
def on_escape (s : MusicInstrument) : MusicInstrument :=
  if s.ui.current_mode = "menu" then s
  else if s.recording_manager.is_recording then
    { s with recording_manager := (stop_recording s.recording_manager).1,
             ui := { s.ui with current_mode := "menu",
                               status_message := "Returned to main menu" },
             selection_mode_recordings := [] }
  else
    { s with ui := { s.ui with current_mode := "menu",
                               status_message := "Returned to main menu" },
             selection_mode_recordings := [] }

/-- `_on_space` (lines 357-361): in record mode, stops the session and
reports the captured count. -/
def on_space (s : MusicInstrument) : MusicInstrument :=
  if s.ui.current_mode = "record" then
    let r := stop_recording s.recording_manager
    { s with recording_manager := r.1,
             ui := { s.ui with
                      current_mode := "menu",
                      status_message :=
                        "Recording stopped. Captured " ++ toString r.2 ++ " notes." } }
  else s

/-- `_handle_menu_selection` (lines 371-413).  `gen` is the
timestamp-derived file name built for menu option 4 and `ts` the ISO
timestamp `save_recording` embeds; both come from the wall clock. -/
def handle_menu_selection (s : MusicInstrument) (d : Nat) (now : Int)
    (st : FileStore) (gen ts : String) : MusicInstrument × FileStore × List Effect :=
  if d = 1 then
    ({ s with ui := { s.ui with
                       current_mode := "live",
                       status_message := "Live play mode activated" } }, st, [])
  else if d = 2 then
    ({ s with recording_manager := start_recording s.recording_manager now,
              ui := { s.ui with
                       current_mode := "record",
                       status_message := "Recording started" } }, st, [])
  else if d = 3 then
    if s.recording_manager.current_recording = [] then
      ({ s with ui := { s.ui with
                         status_message := "No recording available to play" } }, st, [])
    else
      ({ s with ui := { s.ui with
                         current_mode := "playback",
                         status_message := "Playing back last recording..." } },
       st, playback_spawn s.recording_manager)
  else if d = 4 then
    if s.recording_manager.current_recording = [] then
      ({ s with ui := { s.ui with status_message := "No recording to save" } }, st, [])
    else
      let r := save_recording s.recording_manager st gen ts
      if r.1 then
        ({ s with ui := { s.ui with
                           status_message := "Recording saved as " ++ gen ++ ".json" } },
         r.2, [])
      else
        ({ s with ui := { s.ui with status_message := "Failed to save recording" } },
         r.2, [])
  else if d = 5 then
    let recs := get_available_recordings st
    if recs = [] then
      ({ s with ui := { s.ui with status_message := "No recordings found" } }, st, [])
    else
      ({ s with selection_mode_recordings := recs,
                ui := { s.ui with
                         current_mode := "select_recording",
                         status_message := "Select a recording to load and play",
                         available_recordings := recs } }, st, [])
  else if d = 6 then
    ({ s with running := false }, st, [])
  else (s, st, [])

/-- `_handle_recording_selection` (lines 415-433): `selection = int(key)-1`
indexes `self.selection_mode_recordings`; out of range sets an invalid
selection status and changes nothing else. -/
def handle_recording_selection (s : MusicInstrument) (d : Nat) (st : FileStore) :
    MusicInstrument × FileStore × List Effect :=
  if h : d - 1 < s.selection_mode_recordings.length then
    let name := s.selection_mode_recordings.get ⟨d - 1, h⟩
    let r := load_recording s.recording_manager st name
    if r.1 then
      ({ s with recording_manager := r.2,
                ui := { s.ui with
                         current_mode := "playback",
                         status_message := "Loaded and playing: " ++ name } },
       st, playback_spawn r.2)
    else
      ({ s with ui := { s.ui with status_message := "Failed to load recording" } },
       st, [])
  else
    ({ s with ui := { s.ui with status_message := "Invalid selection" } }, st, [])

/-- `_on_number_key` (lines 363-369): digits are interpreted only in the
menu and the recording selector; every other mode ignores them. -/
def on_number_key (s : MusicInstrument) (d : Nat) (now : Int)
    (st : FileStore) (gen ts : String) : MusicInstrument × FileStore × List Effect :=
  if s.ui.current_mode = "menu" then handle_menu_selection s d now st gen ts
  else if s.ui.current_mode = "select_recording" then handle_recording_selection s d st
  else (s, st, [])

/-!
## Reachable instrument states

One constructor per keyboard hook (`_setup_keyboard_hooks`, lines
323-332): the eight note keys, escape, space, and the digits 1-9.  Wall
clock instants are positive (`time.time()` is seconds since the epoch).
-/

/-- States (paired with the file store) reachable from `__init__` through
the keyboard handlers. -/
inductive Reachable : MusicInstrument → FileStore → Prop where
  | init (st : FileStore) : Reachable MusicInstrument.init st
  | note (s : MusicInstrument) (st : FileStore) (key : String) (now : Int) :
      Reachable s st → 0 < now → Reachable (on_note_key s key now).1 st
  | escape (s : MusicInstrument) (st : FileStore) :
      Reachable s st → Reachable (on_escape s) st
  | space (s : MusicInstrument) (st : FileStore) :
      Reachable s st → Reachable (on_space s) st
  | digit (s : MusicInstrument) (st : FileStore) (d : Nat) (now : Int)
      (gen ts : String) :
      Reachable s st → 0 < now → 1 ≤ d → d ≤ 9 →
      Reachable (on_number_key s d now st gen ts).1 (on_number_key s d now st gen ts).2.1

/-!
## Recording-engine operation sequences

For the by-construction sortedness claim we close the engine under
arbitrary interleavings of its three operations, each stamped with the
wall-clock instant at which it runs; `timesMono` says the clock never
goes backwards along the sequence.
-/

/-- One call into the recording engine, with the `time.time()` value it
observes (`stop_recording` reads no clock). -/
inductive EngineOp where
  | start (t : Int)
  | add (note : String) (t : Int)
  | stop
deriving DecidableEq

/-- Run one engine call. -/
def applyOp (s : RecordingManager) : EngineOp → RecordingManager
  | EngineOp.start t => start_recording s t
  | EngineOp.add n t => add_note s n t
  | EngineOp.stop => (stop_recording s).1

/-- Run a sequence of engine calls. -/
def applyOps (s : RecordingManager) (ops : List EngineOp) : RecordingManager :=
  ops.foldl applyOp s

/-- The wall clock is non-decreasing along the call sequence, starting
from instant `t`. -/
def timesMono (t : Int) : List EngineOp → Prop
  | [] => True
  | EngineOp.start u :: rest => t ≤ u ∧ timesMono u rest
  | EngineOp.add _ u :: rest => t ≤ u ∧ timesMono u rest
  | EngineOp.stop :: rest => timesMono t rest

/-- The clock value after the last call of the sequence. -/
def chainEnd (t : Int) : List EngineOp → Int
  | [] => t
  | EngineOp.start u :: rest => chainEnd u rest
  | EngineOp.add _ u :: rest => chainEnd u rest
  | EngineOp.stop :: rest => chainEnd t rest

/-- The offsets of a buffer, in buffer order. -/
def offsets (l : List (String × Int)) : List Int :=
  l.map (fun p => p.2)

/-- A buffer whose offsets are non-negative and non-decreasing. -/
def sortedNonneg (l : List (String × Int)) : Prop :=
  (offsets l).Sorted (· ≤ ·) ∧ ∀ p ∈ l, 0 ≤ p.2

/-- Engine invariant at clock value `now`: the buffer is sorted with
non-negative offsets, and whenever a start instant is set it is in the
past, with every buffered event triggered between it and `now`. -/
def EngineInv (s : RecordingManager) (now : Int) : Prop :=
  sortedNonneg s.current_recording ∧
  ∀ t0, s.recording_start_time = some t0 →
    t0 ≤ now ∧ ∀ p ∈ s.current_recording, t0 + p.2 ≤ now

/-- Fold of `add_note` over a list of (note, instant) calls. -/
def addAll (s : RecordingManager) (calls : List (String × Int)) : RecordingManager :=
  calls.foldl (fun a c => add_note a c.1 c.2) s

theorem add_note_fields (s : RecordingManager) (n : String) (now : Int) :
    (add_note s n now).is_recording = s.is_recording ∧
    (add_note s n now).recording_start_time = s.recording_start_time := by
  unfold add_note
  split
  · exact ⟨rfl, rfl⟩
  · split
    · exact ⟨rfl, rfl⟩
    · exact ⟨rfl, rfl⟩

theorem EngineInv.mono {s : RecordingManager} {now u : Int}
    (h : EngineInv s now) (hle : now ≤ u) : EngineInv s u := by
  obtain ⟨hs, hst⟩ := h
  refine ⟨hs, fun t0 ht0 => ?_⟩
  obtain ⟨h1, h2⟩ := hst t0 ht0
  exact ⟨le_trans h1 hle, fun p hp => le_trans (h2 p hp) hle⟩

theorem engineInv_preserved :
    ∀ (ops : List EngineOp) (s : RecordingManager) (now : Int),
      EngineInv s now → timesMono now ops →
      EngineInv (applyOps s ops) (chainEnd now ops)
  | [], _, _, hinv, _ => hinv
  | EngineOp.start u :: rest, s, now, _, hmono => by
      obtain ⟨_, hrest⟩ := hmono
      have h1 : EngineInv (start_recording s u) u := by
        refine ⟨⟨by simp [start_recording, offsets], by simp [start_recording]⟩, ?_⟩
        intro t0 ht0
        simp only [start_recording, Option.some.injEq] at ht0
        subst ht0
        exact ⟨le_refl u, by simp [start_recording]⟩
      exact engineInv_preserved rest _ u h1 hrest
  | EngineOp.add n u :: rest, s, now, hinv, hmono => by
      obtain ⟨hnu, hrest⟩ := hmono
      have h1 : EngineInv (add_note s n u) u := by
        unfold add_note
        split
        · exact hinv.mono hnu
        case _ t0 heq =>
          split
          case isFalse => exact hinv.mono hnu
          case isTrue hg =>
            obtain ⟨⟨hsort, hnn⟩, hst⟩ := hinv
            obtain ⟨ht0now, hall⟩ := hst t0 heq
            refine ⟨⟨?_, ?_⟩, ?_⟩
            · simp only [offsets, List.map_append, List.map_cons, List.map_nil]
              refine List.pairwise_append.mpr ⟨hsort, by simp, ?_⟩
              intro x hx y hy
              simp only [List.mem_singleton] at hy
              subst hy
              simp only [offsets, List.mem_map] at hx
              obtain ⟨p, hp, hpx⟩ := hx
              have := hall p hp
              linarith
            · intro p hp
              rcases List.mem_append.mp hp with hp1 | hp2
              · exact hnn p hp1
              · simp only [List.mem_singleton] at hp2
                subst hp2
                simp only
                linarith
            · intro t1 ht1
              simp only at ht1
              rw [heq] at ht1
              injection ht1 with ht1
              subst ht1
              refine ⟨le_trans ht0now hnu, ?_⟩
              intro p hp
              rcases List.mem_append.mp hp with hp1 | hp2
              · exact le_trans (hall p hp1) hnu
              · simp only [List.mem_singleton] at hp2
                subst hp2
                simp only
                linarith
      exact engineInv_preserved rest _ u h1 hrest
  | EngineOp.stop :: rest, s, now, hinv, hmono =>
      engineInv_preserved rest _ now hinv hmono

theorem addAll_spec :
    ∀ (calls : List (String × Int)) (s : RecordingManager) (t0 : Int),
      s.is_recording = true → s.recording_start_time = some t0 → t0 ≠ 0 →
      addAll s calls =
        { s with current_recording :=
            s.current_recording ++ calls.map (fun c => (c.1, c.2 - t0)) }
  | [], s, t0, _, _, _ => by simp [addAll]
  | c :: rest, s, t0, hrec, hst, hne => by
      have hstep : add_note s c.1 c.2 =
          { s with current_recording := s.current_recording ++ [(c.1, c.2 - t0)] } := by
        simp [add_note, hst, hrec, hne]
      show addAll (add_note s c.1 c.2) rest = _
      rw [hstep,
        addAll_spec rest
          { s with current_recording := s.current_recording ++ [(c.1, c.2 - t0)] }
          t0 hrec hst hne]
      simp

@[simp] theorem triggerNotes_nil : triggerNotes [] = [] := rfl

@[simp] theorem triggerNotes_trigger (n : String) (t : Int) (l : List PlayAction) :
    triggerNotes (PlayAction.trigger n t :: l) = n :: triggerNotes l := rfl

@[simp] theorem triggerNotes_progress (n : String) (t : Int) (l : List PlayAction) :
    triggerNotes (PlayAction.progress n t :: l) = triggerNotes l := rfl

@[simp] theorem triggerNotes_append (a b : List PlayAction) :
    triggerNotes (a ++ b) = triggerNotes a ++ triggerNotes b :=
  List.filterMap_append a b _

@[simp] theorem triggerTimes_nil : triggerTimes [] = [] := rfl

@[simp] theorem triggerTimes_trigger (n : String) (t : Int) (l : List PlayAction) :
    triggerTimes (PlayAction.trigger n t :: l) = t :: triggerTimes l := rfl

@[simp] theorem triggerTimes_progress (n : String) (t : Int) (l : List PlayAction) :
    triggerTimes (PlayAction.progress n t :: l) = triggerTimes l := rfl

@[simp] theorem triggerTimes_append (a b : List PlayAction) :
    triggerTimes (a ++ b) = triggerTimes a ++ triggerTimes b :=
  List.filterMap_append a b _

@[simp] theorem progressNotes_nil : progressNotes [] = [] := rfl

@[simp] theorem progressNotes_trigger (n : String) (t : Int) (l : List PlayAction) :
    progressNotes (PlayAction.trigger n t :: l) = progressNotes l := rfl

@[simp] theorem progressNotes_progress (n : String) (t : Int) (l : List PlayAction) :
    progressNotes (PlayAction.progress n t :: l) = n :: progressNotes l := rfl

@[simp] theorem progressNotes_append (a b : List PlayAction) :
    progressNotes (a ++ b) = progressNotes a ++ progressNotes b :=
  List.filterMap_append a b _

theorem playbackRun_triggerNotes :
    ∀ (evs : List ((String × Int) × Int)) (start : Int) (cb : Bool) (now : Int),
      triggerNotes (playbackRun start cb now evs) = evs.map (fun p => p.1.1)
  | [], _, _, _ => rfl
  | (ev, d) :: rest, start, cb, now => by
      simp only [playbackRun, triggerNotes_append, triggerNotes_trigger]
      cases cb <;>
        simp [playbackRun_triggerNotes rest]

theorem playbackRun_progressNotes :
    ∀ (evs : List ((String × Int) × Int)) (start : Int) (cb : Bool) (now : Int),
      progressNotes (playbackRun start cb now evs) =
        if cb then evs.map (fun p => p.1.1) else []
  | [], _, cb, _ => by cases cb <;> rfl
  | (ev, d) :: rest, start, cb, now => by
      simp only [playbackRun, progressNotes_append, progressNotes_trigger]
      cases cb <;>
        simp [playbackRun_progressNotes rest]

theorem playbackRun_triggerTimes :
    ∀ (evs : List ((String × Int) × Int)) (start : Int) (cb : Bool) (now : Int)
      (ev : (String × Int) × Int) (rest : List ((String × Int) × Int)),
      evs = ev :: rest →
      triggerTimes (playbackRun start cb now evs) =
        (if now < start + ev.1.2 then start + ev.1.2 else now) ::
          triggerTimes (playbackRun start cb
            ((if now < start + ev.1.2 then start + ev.1.2 else now) + ev.2) rest) := by
  intro evs start cb now ev rest hevs
  subst hevs
  cases cb <;> simp [playbackRun]

theorem playbackRun_times_ge :
    ∀ (evs : List ((String × Int) × Int)) (start : Int) (cb : Bool) (now : Int),
      (∀ p ∈ evs, 0 ≤ p.2) →
      ∀ t ∈ triggerTimes (playbackRun start cb now evs), now ≤ t
  | [], _, _, _ => by intro _; simp [playbackRun]
  | (ev, d) :: rest, start, cb, now => by
      intro hd t ht
      rw [playbackRun_triggerTimes ((ev, d) :: rest) start cb now (ev, d) rest rfl] at ht
      have hfire : now ≤ (if now < start + ev.2 then start + ev.2 else now) := by
        split
        · linarith
        · exact le_refl now
      rcases List.mem_cons.mp ht with h1 | h2
      · subst h1
        exact hfire
      · have hd0 : (0 : Int) ≤ d := hd (ev, d) (by simp)
        have := playbackRun_times_ge rest start cb
          ((if now < start + ev.2 then start + ev.2 else now) + d)
          (fun p hp => hd p (by simp [hp])) t h2
        linarith [hfire]

theorem playbackRun_times_sorted :
    ∀ (evs : List ((String × Int) × Int)) (start : Int) (cb : Bool) (now : Int),
      (∀ p ∈ evs, 0 ≤ p.2) →
      (triggerTimes (playbackRun start cb now evs)).Sorted (· ≤ ·)
  | [], _, _, _ => by intro _; simp [playbackRun]
  | (ev, d) :: rest, start, cb, now => by
      intro hd
      rw [playbackRun_triggerTimes ((ev, d) :: rest) start cb now (ev, d) rest rfl]
      have hd0 : (0 : Int) ≤ d := hd (ev, d) (by simp)
      have hrest : ∀ p ∈ rest, (0 : Int) ≤ p.2 := fun p hp => hd p (by simp [hp])
      refine List.sorted_cons.mpr ⟨?_, playbackRun_times_sorted rest start cb _ hrest⟩
      intro b hb
      have := playbackRun_times_ge rest start cb
        ((if now < start + ev.2 then start + ev.2 else now) + d) hrest b hb
      linarith

theorem playbackRun_never_early :
    ∀ (evs : List ((String × Int) × Int)) (start : Int) (cb : Bool) (now : Int),
      List.Forall₂ (fun p t => start + p.1.2 ≤ t) evs
        (triggerTimes (playbackRun start cb now evs))
  | [], _, _, _ => by simp [playbackRun]
  | (ev, d) :: rest, start, cb, now => by
      rw [playbackRun_triggerTimes ((ev, d) :: rest) start cb now (ev, d) rest rfl]
      refine List.Forall₂.cons ?_ (playbackRun_never_early rest start cb _)
      simp only
      split
      · exact le_refl _
      · linarith [not_lt.mp (by assumption : ¬ now < start + ev.2)]

theorem playbackRun_flatten :
    ∀ (evs : List ((String × Int) × Int)) (start : Int) (cb : Bool) (now : Int),
      playbackRun start cb now evs =
        ((evs.map (fun p => p.1.1)).zip
            (triggerTimes (playbackRun start cb now evs))).flatMap
          (fun nt => PlayAction.trigger nt.1 nt.2 ::
            (if cb then [PlayAction.progress nt.1 nt.2] else []))
  | [], _, _, _ => by simp [playbackRun]
  | (ev, d) :: rest, start, cb, now => by
      rw [playbackRun_triggerTimes ((ev, d) :: rest) start cb now (ev, d) rest rfl]
      simp only [List.map_cons, List.zip_cons_cons, List.flatMap_cons]
      rw [← playbackRun_flatten rest start cb
        ((if now < start + ev.2 then start + ev.2 else now) + d)]
      cases cb <;> simp [playbackRun]

/-- `update_last_note` never changes the mode. -/
theorem update_last_note_mode (ui : MusicUI) (n : String) :
    (update_last_note ui n).current_mode = ui.current_mode := by
  unfold update_last_note
  split <;> rfl

/-- `_on_note_key` leaves the mode, the active flag and the start instant
alone. -/
theorem on_note_key_frame (s : MusicInstrument) (k : String) (now : Int) :
    (on_note_key s k now).1.ui.current_mode = s.ui.current_mode ∧
    (on_note_key s k now).1.recording_manager.is_recording =
      s.recording_manager.is_recording ∧
    (on_note_key s k now).1.recording_manager.recording_start_time =
      s.recording_manager.recording_start_time := by
  unfold on_note_key
  split
  · exact ⟨rfl, rfl, rfl⟩
  · split
    · exact ⟨update_last_note_mode _ _,
        (add_note_fields _ _ _).1, (add_note_fields _ _ _).2⟩
    · exact ⟨update_last_note_mode _ _, rfl, rfl⟩

/-- `load_recording` only replaces the buffer. -/
theorem load_recording_frame (s : RecordingManager) (st : FileStore) (n : String) :
    (load_recording s st n).2.is_recording = s.is_recording ∧
    (load_recording s st n).2.recording_start_time = s.recording_start_time := by
  unfold load_recording
  split <;> exact ⟨rfl, rfl⟩

/-- Mode/engine coupling maintained by every handler: the UI is in record
mode exactly when a session is active, and the start instant of an
active session is a positive wall-clock value. -/
def InstrInv (s : MusicInstrument) : Prop :=
  (s.ui.current_mode = "record" ↔ s.recording_manager.is_recording = true) ∧
  (s.recording_manager.is_recording = true →
    ∃ t0, s.recording_manager.recording_start_time = some t0 ∧ 0 < t0)

theorem reachable_inv {s : MusicInstrument} {st : FileStore}
    (h : Reachable s st) : InstrInv s := by
  induction h with
  | init st =>
      exact ⟨by simp [MusicInstrument.init, MusicUI.init, RecordingManager.init],
             by simp [MusicInstrument.init, RecordingManager.init]⟩
  | note s st key now _ _ ih =>
      obtain ⟨ih1, ih2⟩ := ih
      obtain ⟨hm, hrec, hst⟩ := on_note_key_frame s key now
      exact ⟨by rw [hm, hrec]; exact ih1, by rw [hrec, hst]; exact ih2⟩
  | escape s st _ ih =>
      unfold on_escape
      split
      · exact ih
      · split
        · exact ⟨by simp [stop_recording], by simp [stop_recording]⟩
        case isFalse hb =>
          refine ⟨?_, ?_⟩
          · simp only [Bool.not_eq_true] at hb
            simp [hb]
          · simp only [Bool.not_eq_true] at hb
            simp [hb]
  | space s st _ ih =>
      unfold on_space
      split
      · exact ⟨by simp [stop_recording], by simp [stop_recording]⟩
      · exact ih
  | digit s st d now gen ts _ hnow _ _ ih =>
      obtain ⟨ih1, ih2⟩ := ih
      unfold on_number_key
      split
      case isTrue hmode =>
        have hnr : s.recording_manager.is_recording = false := by
          cases hb : s.recording_manager.is_recording
          · rfl
          · exact absurd (hmode ▸ ih1.mpr hb) (by decide)
        unfold handle_menu_selection
        dsimp only
        split
        · exact ⟨by simp [hnr], by simp [hnr]⟩
        · split
          · refine ⟨by simp [start_recording], ?_⟩
            intro _
            exact ⟨now, by simp [start_recording], hnow⟩
          · split
            · split <;> exact ⟨by simp [hmode, hnr], by simp [hnr]⟩
            · split
              · split
                · exact ⟨by simp [hmode, hnr], by simp [hnr]⟩
                · split <;> exact ⟨by simp [hmode, hnr], by simp [hnr]⟩
              · split
                · split <;> exact ⟨by simp [hmode, hnr], by simp [hnr]⟩
                · split
                  · exact ⟨by simp [hmode, hnr], by simp [hnr]⟩
                  · exact ⟨by simp [hmode, hnr], by simp [hnr]⟩
      · split
        case isTrue hmode =>
          have hnr : s.recording_manager.is_recording = false := by
            cases hb : s.recording_manager.is_recording
            · rfl
            · exact absurd (hmode ▸ ih1.mpr hb) (by decide)
          unfold handle_recording_selection
          dsimp only
          split
          · split
            · refine ⟨?_, ?_⟩
              · simp only
                rw [(load_recording_frame s.recording_manager st _).1, hnr]
                simp
              · simp only
                rw [(load_recording_frame s.recording_manager st _).1, hnr]
                simp
            · exact ⟨by simp [hmode, hnr], by simp [hnr]⟩
          · exact ⟨by simp [hmode, hnr], by simp [hnr]⟩
        · exact ⟨ih1, ih2⟩

theorem storeGet_storeSet (st : FileStore) (n : String) (v : SavedRecording) :
    storeGet (storeSet st n v) n = some v := by
  induction st with
  | nil => simp [storeSet, storeGet]
  | cons kv rest ih =>
      unfold storeSet
      split
      case isTrue h => simp [storeGet]
      case isFalse h =>
        simp only [Bool.not_eq_true] at h
        simpa [storeGet, List.find?, h] using ih

/-- `add_note` on an inactive engine is the identity. -/
theorem add_note_inactive (s : RecordingManager) (h : s.is_recording = false)
    (n : String) (now : Int) : add_note s n now = s := by
  unfold add_note
  split
  · rfl
  · split
    case isTrue hg => rw [h] at hg; exact absurd hg.1 (by simp)
    · rfl

/-!
## Claims
-/

/-- C1, as stated, is false on the code: the empty recording has a
(vacuously) offset-sorted events sequence, yet `save_recording` refuses
it — it returns `False` and writes nothing — so the subsequent
`load_recording` of that name fails as well instead of returning an
equal recording. -/
theorem C1_counterexample :
    (save_recording RecordingManager.init [] ("r1") ("t1")).1 = false ∧
    (load_recording RecordingManager.init
        (save_recording RecordingManager.init [] ("r1") ("t1")).2 ("r1")).1 = false :=
  ⟨rfl, rfl⟩

/-- C1 (amended): for every recording with a NON-EMPTY events sequence
and every name, saving under that name and then loading it succeeds and
returns exactly the saved events sequence (only the stored creation
timestamp is regenerated at save time). -/
theorem C1_roundtrip_nonempty (s : RecordingManager) (st : FileStore)
    (name ts : String) (hne : s.current_recording ≠ []) :
    (save_recording s st name ts).1 = true ∧
    (load_recording s (save_recording s st name ts).2 name).1 = true ∧
    (load_recording s (save_recording s st name ts).2 name).2.current_recording =
      s.current_recording := by
  unfold save_recording
  rw [if_neg hne]
  refine ⟨rfl, ?_, ?_⟩ <;>
    simp [load_recording, storeGet_storeSet]

/-- Witness for C1 (amended) at a concrete one-event recording. -/
theorem C1_roundtrip_nonempty_witness :
    ({ current_recording := [(("sa" : String), (1 : Int))],
       recording_start_time := some 1,
       is_recording := false } : RecordingManager).current_recording ≠ [] ∧
    (load_recording
        { current_recording := [(("sa" : String), (1 : Int))],
          recording_start_time := some 1, is_recording := false }
        (save_recording
          { current_recording := [(("sa" : String), (1 : Int))],
            recording_start_time := some 1, is_recording := false }
          [] ("take1") ("ts")).2 ("take1")).2.current_recording =
      [(("sa" : String), (1 : Int))] :=
  ⟨by simp,
   (C1_roundtrip_nonempty
      { current_recording := [(("sa" : String), (1 : Int))],
        recording_start_time := some 1, is_recording := false }
      [] ("take1") ("ts") (by simp)).2.2⟩

/-- C5: `add_note` (called `record_event` by the spec) called while
`is_recording = false` never mutates anything, for any number of calls
with any notes and instants; it is a total function, so no exception is
raised. -/
theorem C5_record_event_inactive_noop (s : RecordingManager)
    (h : s.is_recording = false) (calls : List (String × Int)) :
    addAll s calls = s := by
  induction calls with
  | nil => rfl
  | cons c cs ih =>
      show addAll (add_note s c.1 c.2) cs = s
      rw [add_note_inactive s h c.1 c.2]
      exact ih

/-- Witness for C5: two inactive calls on a stopped engine with a
non-empty buffer change nothing. -/
theorem C5_record_event_inactive_noop_witness :
    ({ current_recording := [(("sa" : String), (1 : Int))],
       recording_start_time := some 1,
       is_recording := false } : RecordingManager).is_recording = false ∧
    addAll
      { current_recording := [(("sa" : String), (1 : Int))],
        recording_start_time := some 1, is_recording := false }
      [("re", 2), ("ga", 3)] =
      { current_recording := [(("sa" : String), (1 : Int))],
        recording_start_time := some 1, is_recording := false } :=
  ⟨rfl,
   C5_record_event_inactive_noop
     { current_recording := [(("sa" : String), (1 : Int))],
       recording_start_time := some 1, is_recording := false }
     rfl [("re", 2), ("ga", 3)]⟩

/-- C6: `stop_recording` only clears the active flag and reports the
buffered count — buffer and start instant are untouched — and the
start/add.../stop scenario at non-decreasing offsets `tᵢ = uᵢ - t₀`
returns `n` with the buffer holding exactly those `n` events in call
order. -/
theorem C6_stop_frame_and_count (s : RecordingManager) (t0 : Int) (ht0 : t0 ≠ 0)
    (calls : List (String × Int))
    (_hmono : (calls.map (fun c => c.2 - t0)).Sorted (· ≤ ·)) :
    (stop_recording s).1.current_recording = s.current_recording ∧
    (stop_recording s).1.recording_start_time = s.recording_start_time ∧
    (stop_recording s).1.is_recording = false ∧
    (stop_recording s).2 = s.current_recording.length ∧
    (stop_recording (addAll (start_recording s t0) calls)).2 = calls.length ∧
    (stop_recording (addAll (start_recording s t0) calls)).1.current_recording =
      calls.map (fun c => (c.1, c.2 - t0)) := by
  have hrun := addAll_spec calls (start_recording s t0) t0 rfl rfl ht0
  refine ⟨rfl, rfl, rfl, rfl, ?_, ?_⟩ <;>
    rw [hrun] <;>
    simp [stop_recording, start_recording]

/-- Witness for C6: two events recorded at instants 2 and 3 after a start
at instant 1 yield count 2 and buffer `[(sa, 1), (re, 2)]`. -/
theorem C6_stop_frame_and_count_witness :
    (1 : Int) ≠ 0 ∧
    (([(("sa" : String), (2 : Int)), ("re", 3)].map
        (fun c => c.2 - (1 : Int))).Sorted (· ≤ ·)) ∧
    (stop_recording (addAll (start_recording RecordingManager.init 1)
        [("sa", 2), ("re", 3)])).2 = 2 ∧
    (stop_recording (addAll (start_recording RecordingManager.init 1)
        [("sa", 2), ("re", 3)])).1.current_recording =
      [("sa", 2), ("re", 3)].map (fun c => (c.1, c.2 - (1 : Int))) :=
  ⟨by norm_num, by norm_num [List.sorted_cons],
   (C6_stop_frame_and_count RecordingManager.init 1 (by norm_num)
      [("sa", 2), ("re", 3)] (by norm_num [List.sorted_cons])).2.2.2.2.1,
   (C6_stop_frame_and_count RecordingManager.init 1 (by norm_num)
      [("sa", 2), ("re", 3)] (by norm_num [List.sorted_cons])).2.2.2.2.2⟩

/-- The C2 playback contract for one run of the playback loop: one
trigger per event in event order (each immediately followed by its
progress callback at the same instant when a callback is supplied, and
no progress actions otherwise), trigger instants non-decreasing, no
event triggered before `playback_start + offset`, and the first event
fired at exactly `max(now, start + offset)` with the rest of the loop
continuing from that instant plus the processing delay of the event. -/
def C2Prop (start now : Int) (cb : Bool) (evs : List ((String × Int) × Int)) : Prop :=
  triggerNotes (playbackRun start cb now evs) = evs.map (fun p => p.1.1) ∧
  progressNotes (playbackRun start cb now evs) =
    (if cb then evs.map (fun p => p.1.1) else []) ∧
  playbackRun start cb now evs =
    ((evs.map (fun p => p.1.1)).zip
        (triggerTimes (playbackRun start cb now evs))).flatMap
      (fun nt => PlayAction.trigger nt.1 nt.2 ::
        (if cb then [PlayAction.progress nt.1 nt.2] else [])) ∧
  (triggerTimes (playbackRun start cb now evs)).Sorted (· ≤ ·) ∧
  List.Forall₂ (fun p t => start + p.1.2 ≤ t) evs
    (triggerTimes (playbackRun start cb now evs)) ∧
  ∃ e rest, evs = e :: rest ∧
    playbackRun start cb now evs =
      (PlayAction.trigger e.1.1 (if now < start + e.1.2 then start + e.1.2 else now) ::
        (if cb then
          [PlayAction.progress e.1.1
            (if now < start + e.1.2 then start + e.1.2 else now)]
         else [])) ++
      playbackRun start cb
        ((if now < start + e.1.2 then start + e.1.2 else now) + e.2) rest

/-- C2: for every non-empty event list (with arbitrary non-negative
per-event processing delays) the playback loop satisfies `C2Prop`: it
triggers one note per event in sequence order, follows each with the
progress callback when provided, waits only the remaining time to
`playback_start + offset` (or not at all when that instant has passed),
and never reorders events even under overruns. -/
theorem C2_playback_in_order (start now : Int) (cb : Bool)
    (evs : List ((String × Int) × Int))
    (hd : ∀ p ∈ evs, 0 ≤ p.2) (hne : evs ≠ []) :
    C2Prop start now cb evs := by
  obtain ⟨e, rest, hevs⟩ := List.exists_cons_of_ne_nil hne
  refine ⟨playbackRun_triggerNotes evs start cb now,
    playbackRun_progressNotes evs start cb now,
    playbackRun_flatten evs start cb now,
    playbackRun_times_sorted evs start cb now hd,
    playbackRun_never_early evs start cb now,
    e, rest, hevs, ?_⟩
  subst hevs
  obtain ⟨⟨n, off⟩, d⟩ := e
  cases cb <;> simp [playbackRun]

/-- Witness for C2 at the two-event recording `[(sa, 0), (re, 1)]` with a
progress callback and zero processing delays. -/
theorem C2_playback_in_order_witness :
    (∀ p ∈ [((("sa" : String), (0 : Int)), (0 : Int)), (("re", 1), 0)], 0 ≤ p.2) ∧
    ([((("sa" : String), (0 : Int)), (0 : Int)), (("re", 1), 0)] ≠ []) ∧
    C2Prop 0 0 true [((("sa" : String), (0 : Int)), (0 : Int)), (("re", 1), 0)] :=
  ⟨by decide, by decide,
   C2_playback_in_order 0 0 true
     [((("sa" : String), (0 : Int)), (0 : Int)), (("re", 1), 0)]
     (by decide) (by decide)⟩

/-- C3, as stated, is false on the code: `playback_recording` returns no
handle at all (the Python method returns `None` and spawns a daemon
thread whose loop checks no cancellation flag), so nothing can cancel a
started playback.  Concretely, for the two-event recording
`[(sa, 0), (re, 1)]` the trace of the spawned loop triggers 2 notes, not the
1 the claim requires after a cancellation before the second target —
and escape during Playback (the only cancellation-like gesture the UI
offers) does not touch the recording the thread plays from. -/
theorem C3_counterexample :
    (triggerNotes (playbackRun 0 false 0
        [((("sa" : String), (0 : Int)), (0 : Int)), (("re", 1), 0)])).length = 2 ∧
    (on_escape
        { recording_manager :=
            { current_recording := [(("sa" : String), (0 : Int)), ("re", 1)],
              recording_start_time := some 1, is_recording := false },
          ui := { current_mode := "playback", last_played_note := "",
                  status_message := "", available_recordings := [] },
          running := true,
          selection_mode_recordings := [] }).recording_manager.current_recording =
      [(("sa" : String), (0 : Int)), ("re", 1)] := by
  exact ⟨by decide, by decide⟩

/-- C3 (amended): playback offers no cancellation — `playback_recording`
returns `None`, and once the loop starts the note of every event is triggered
exactly once (one trigger per event, always), while escape leaves the
buffer the thread snapshots untouched. -/
theorem C3_no_cancellation :
    (∀ (start : Int) (cb : Bool) (now : Int) (evs : List ((String × Int) × Int)),
      (triggerNotes (playbackRun start cb now evs)).length = evs.length) ∧
    (∀ s : MusicInstrument,
      (on_escape s).recording_manager.current_recording =
        s.recording_manager.current_recording) := by
  constructor
  · intro start cb now evs
    rw [playbackRun_triggerNotes evs start cb now]
    exact List.length_map _ _
  · intro s
    unfold on_escape
    split
    · rfl
    · split <;> rfl

/-- C9: any sequence of engine calls (`start`/`add_note`/`stop`) made
against a non-decreasing wall clock leaves, by construction and without
any sorting step, a buffer whose offsets are non-negative and
non-decreasing; and a successful save stores exactly that buffer, so
every saved record satisfies the same invariant. -/
theorem C9_sorted_by_construction (ops : List EngineOp) (h : timesMono 0 ops) :
    sortedNonneg (applyOps RecordingManager.init ops).current_recording ∧
    (∀ (st : FileStore) (fn ts : String),
      (save_recording (applyOps RecordingManager.init ops) st fn ts).1 = true →
      ∃ rec,
        storeGet (save_recording (applyOps RecordingManager.init ops) st fn ts).2 fn =
          some rec ∧
        rec.notes = (applyOps RecordingManager.init ops).current_recording ∧
        sortedNonneg rec.notes) := by
  have hinv : EngineInv RecordingManager.init 0 := by
    refine ⟨⟨by simp [offsets, RecordingManager.init],
             by simp [RecordingManager.init]⟩, ?_⟩
    intro t0 ht0
    simp [RecordingManager.init] at ht0
  have hend := engineInv_preserved ops RecordingManager.init 0 hinv h
  refine ⟨hend.1, ?_⟩
  intro st fn ts hsave
  unfold save_recording at hsave ⊢
  split at hsave
  · simp at hsave
  case isFalse hne =>
    rw [if_neg hne]
    exact ⟨_, storeGet_storeSet st fn _, rfl, hend.1⟩

/-- Witness for C9: start at instant 1, record `sa` at 2 and `re` at 3,
stop — a monotone clock — and the resulting buffer is sorted with
non-negative offsets. -/
theorem C9_sorted_by_construction_witness :
    timesMono 0 [EngineOp.start 1, EngineOp.add ("sa") 2,
      EngineOp.add ("re") 3, EngineOp.stop] ∧
    sortedNonneg (applyOps RecordingManager.init
      [EngineOp.start 1, EngineOp.add ("sa") 2,
        EngineOp.add ("re") 3, EngineOp.stop]).current_recording :=
  ⟨by norm_num [timesMono],
   (C9_sorted_by_construction
     [EngineOp.start 1, EngineOp.add ("sa") 2, EngineOp.add ("re") 3, EngineOp.stop]
     (by norm_num [timesMono])).1⟩

/-- Scenario state: from the fresh instrument, menu option 2 pressed at
instant 1 — recording mode, active session started at 1, empty buffer. -/
def sRec1 : MusicInstrument :=
  (on_number_key MusicInstrument.init 2 1 [] ("g") ("t")).1

/-- Scenario state: `sRec1`, then note key `a` pressed at instant 3 —
buffer `[(sa, 2)]`, still recording. -/
def sRec2 : MusicInstrument :=
  (on_note_key sRec1 ("a") 3).1

theorem sRec2_reachable : Reachable sRec2 [] := by
  have h2 := Reachable.digit MusicInstrument.init [] 2 1 ("g") ("t")
    (Reachable.init []) (by norm_num) (by norm_num) (by norm_num)
  have h3 := Reachable.note _ _ ("a") 3 h2 (by norm_num)
  exact h3

/-- C4, as stated, is false on the code: after entering recording mode
(menu option 2 at instant 1) and capturing `(sa, 2)`, pressing `2` again
does NOT start a fresh take — `_on_number_key` ignores digits outside the
menu and the selector, so the state is entirely unchanged — and the
content eventually saved still contains the first-session event
`(sa, 2)`. -/
theorem C4_counterexample :
    (on_number_key sRec2 2 4 [] ("g") ("t")).1 = sRec2 ∧
    storeGet (on_number_key (on_space (on_number_key sRec2 2 4 [] ("g") ("t")).1)
        4 5 [] ("g2") ("t2")).2.1 ("g2") =
      some { timestamp := "t2", notes := [("sa", 2)] } := by
  exact ⟨by decide, by decide⟩

/-- C4 (amended): `start_recording` itself is unconditional — even with a
session already active it clears the buffer, stamps the start instant and
sets the active flag — and selecting 2 from the Menu always begins such a
fresh empty session, so a take recorded after returning to the menu can
contain no earlier event; but a second press of 2 while still in
Recording mode is ignored entirely (digits are only interpreted in the
menu and the selector), rather than restarting the session. -/
theorem C4_start_fresh_take :
    (∀ (s : RecordingManager) (now : Int),
      start_recording s now =
        { current_recording := [], recording_start_time := some now,
          is_recording := true }) ∧
    (∀ (s : MusicInstrument) (d : Nat) (now : Int) (st : FileStore) (gen ts : String),
      s.ui.current_mode = "record" →
      on_number_key s d now st gen ts = (s, st, [])) ∧
    (∀ (s : MusicInstrument) (now : Int) (st : FileStore) (gen ts : String),
      s.ui.current_mode = "menu" →
      (on_number_key s 2 now st gen ts).1.recording_manager =
        { current_recording := [], recording_start_time := some now,
          is_recording := true } ∧
      (on_number_key s 2 now st gen ts).1.ui.current_mode = "record") := by
  refine ⟨fun s now => rfl, ?_, ?_⟩
  · intro s d now st gen ts hmode
    unfold on_number_key
    rw [hmode]
    simp
  · intro s now st gen ts hmode
    unfold on_number_key handle_menu_selection
    rw [hmode]
    simp [start_recording]

/-- Witness for C4 (amended): the no-op at `sRec2` (recording mode) and
the fresh empty session from the initial menu. -/
theorem C4_start_fresh_take_witness :
    sRec2.ui.current_mode = "record" ∧
    on_number_key sRec2 2 4 [] ("g") ("t") = (sRec2, [], []) ∧
    MusicInstrument.init.ui.current_mode = "menu" ∧
    (on_number_key MusicInstrument.init 2 1 [] ("g") ("t")).1.recording_manager =
      { current_recording := [], recording_start_time := some 1,
        is_recording := true } :=
  ⟨by decide,
   C4_start_fresh_take.2.1 sRec2 2 4 [] ("g") ("t") (by decide),
   by decide,
   (C4_start_fresh_take.2.2 MusicInstrument.init 1 [] ("g") ("t") (by decide)).1⟩

/-- The discarding clause of C7 is false on the code:
escape from Recording mode runs `stop_recording`, which keeps the whole
buffer as the current recording — here `[(sa, 2)]` survives the escape
and menu option 3 immediately plays it back. -/
theorem C7_counterexample :
    (on_escape sRec2).recording_manager.current_recording = [("sa", 2)] ∧
    (on_number_key (on_escape sRec2) 3 5 [] ("g") ("t")).2.2 =
      [Effect.playbackStarted [("sa", 2)]] ∧
    (on_number_key (on_escape sRec2) 3 5 [] ("g") ("t")).1.ui.current_mode =
      "playback" := by
  exact ⟨by decide, by decide, by decide⟩

/-- C7 (amended): escape in any non-Menu mode returns to the Menu,
clears the pending selection list and deactivates the recording engine —
in a reachable state the engine is active exactly in Recording mode, so
that is when `stop_recording` runs — but the in-progress buffer is
retained as the current recording, not discarded. -/
theorem C7_escape_to_menu (s : MusicInstrument) (st : FileStore)
    (hr : Reachable s st) (hmode : s.ui.current_mode ≠ "menu") :
    (on_escape s).ui.current_mode = "menu" ∧
    (on_escape s).selection_mode_recordings = [] ∧
    (on_escape s).recording_manager.is_recording = false ∧
    (on_escape s).recording_manager.current_recording =
      s.recording_manager.current_recording ∧
    (s.ui.current_mode = "record" → s.recording_manager.is_recording = true) := by
  have hinv := reachable_inv hr
  have hmain : (on_escape s).ui.current_mode = "menu" ∧
      (on_escape s).selection_mode_recordings = [] ∧
      (on_escape s).recording_manager.is_recording = false ∧
      (on_escape s).recording_manager.current_recording =
        s.recording_manager.current_recording := by
    unfold on_escape
    rw [if_neg hmode]
    cases hb : s.recording_manager.is_recording
    · simp [hb]
    · simp [hb, stop_recording]
  exact ⟨hmain.1, hmain.2.1, hmain.2.2.1, hmain.2.2.2, fun hm => hinv.1.mp hm⟩

/-- Witness for C7 (amended) at the reachable recording-mode state
`sRec2`. -/
theorem C7_escape_to_menu_witness :
    Reachable sRec2 [] ∧ sRec2.ui.current_mode ≠ "menu" ∧
    ((on_escape sRec2).ui.current_mode = "menu" ∧
     (on_escape sRec2).selection_mode_recordings = [] ∧
     (on_escape sRec2).recording_manager.is_recording = false ∧
     (on_escape sRec2).recording_manager.current_recording =
       sRec2.recording_manager.current_recording ∧
     (sRec2.ui.current_mode = "record" →
       sRec2.recording_manager.is_recording = true)) :=
  ⟨sRec2_reachable, by decide,
   C7_escape_to_menu sRec2 [] sRec2_reachable (by decide)⟩

/-- C8: in the recording selector, a digit `d` (the hooked keys are 1-9)
that is out of range — `d - 1` at or past the end of
`selection_mode_recordings` — only sets the invalid-selection status,
leaving mode, engine, store and everything else unchanged; a digit in
range loads the selected file, switches to playback mode, reports the
loaded name and starts playback of the loaded events. -/
theorem C8_select_recording (s : MusicInstrument) (st : FileStore) (d : Nat)
    (now : Int) (gen ts : String)
    (hmode : s.ui.current_mode = "select_recording") :
    (s.selection_mode_recordings.length ≤ d - 1 →
      on_number_key s d now st gen ts =
        ({ s with ui := { s.ui with status_message := "Invalid selection" } },
         st, [])) ∧
    (∀ (h : d - 1 < s.selection_mode_recordings.length) (rec : SavedRecording),
      storeGet st (s.selection_mode_recordings.get ⟨d - 1, h⟩) = some rec →
      rec.notes ≠ [] →
      (on_number_key s d now st gen ts).1.ui.current_mode = "playback" ∧
      (on_number_key s d now st gen ts).1.recording_manager.current_recording =
        rec.notes ∧
      (on_number_key s d now st gen ts).2.1 = st ∧
      (on_number_key s d now st gen ts).2.2 =
        [Effect.playbackStarted rec.notes] ∧
      (on_number_key s d now st gen ts).1.ui.status_message =
        "Loaded and playing: " ++ s.selection_mode_recordings.get ⟨d - 1, h⟩) := by
  have hnm : ¬ s.ui.current_mode = "menu" := by
    rw [hmode]; decide
  unfold on_number_key
  rw [if_neg hnm, if_pos hmode]
  unfold handle_recording_selection
  constructor
  · intro hge
    rw [dif_neg (by omega)]
  · intro h rec hrec hne
    rw [dif_pos h]
    simp only [load_recording, hrec, playback_spawn]
    rw [if_neg hne]
    exact ⟨rfl, rfl, rfl, rfl, rfl⟩

/-- Selector scenario: two stored recordings `a` and `b`. -/
def selState : MusicInstrument :=
  { recording_manager := RecordingManager.init,
    ui := { current_mode := "select_recording", last_played_note := "",
            status_message := "", available_recordings := ["a", "b"] },
    running := true,
    selection_mode_recordings := ["a", "b"] }

/-- Selector scenario store backing `selState`. -/
def selStore : FileStore :=
  [("a", { timestamp := "t", notes := [("sa", 0)] }),
   ("b", { timestamp := "t", notes := [("re", 0)] })]

/-- Witness for C8: with recordings `["a", "b"]`, `select(3)` only sets
the invalid-selection status, and `select(1)` loads and plays `a`. -/
theorem C8_select_recording_witness :
    selState.ui.current_mode = "select_recording" ∧
    (selState.selection_mode_recordings.length ≤ 3 - 1 ∧
      on_number_key selState 3 0 selStore ("g") ("t") =
        ({ selState with
            ui := { selState.ui with status_message := "Invalid selection" } },
         selStore, [])) ∧
    ((1 : Nat) - 1 < selState.selection_mode_recordings.length ∧
      (on_number_key selState 1 0 selStore ("g") ("t")).1.ui.current_mode =
        "playback" ∧
      (on_number_key selState 1 0 selStore ("g") ("t")).2.2 =
        [Effect.playbackStarted [("sa", 0)]]) := by
  have h1 : (1 : Nat) - 1 < selState.selection_mode_recordings.length := by decide
  have hrec : storeGet selStore ("a") =
      some { timestamp := "t", notes := [("sa", 0)] } := by decide
  have hin := (C8_select_recording selState selStore 1 0 ("g") ("t") rfl).2
    h1 { timestamp := "t", notes := [("sa", 0)] } hrec (by decide)
  exact ⟨rfl,
    ⟨by decide, (C8_select_recording selState selStore 3 0 ("g") ("t") rfl).1 (by decide)⟩,
    ⟨h1, hin.1, hin.2.2.2.1⟩⟩

/-- The C10 contract of the note-key handler at a resolved key binding
`kv = (key, note_id, display)`: the sound of the note is triggered and the
last-note display updated whatever the current mode is (the handler never
reads the mode, which stays unchanged), and the note is appended to the
recording buffer — stamped `now - start_instant` — exactly when a session
is active. -/
def C10Prop (s : MusicInstrument) (key : String) (now : Int)
    (kv : String × String × String) : Prop :=
  (on_note_key s key now).2 = [Effect.sound kv.2.1] ∧
  (on_note_key s key now).1.ui.current_mode = s.ui.current_mode ∧
  (on_note_key s key now).1.ui.last_played_note =
    kv.2.2 ++ " (" ++ kv.2.1 ++ ")" ∧
  (s.recording_manager.is_recording = true →
    ∃ t0, s.recording_manager.recording_start_time = some t0 ∧
      (on_note_key s key now).1.recording_manager.current_recording =
        s.recording_manager.current_recording ++ [(kv.2.1, now - t0)]) ∧
  (s.recording_manager.is_recording = false →
    (on_note_key s key now).1.recording_manager = s.recording_manager)

/-- C10: in every reachable state — whatever the mode, Menu included —
pressing a bound note key plays that note, updates the last-note display,
leaves the mode unchanged, and appends to the recording buffer exactly
when a session is active. -/
theorem C10_note_key_ignores_mode (s : MusicInstrument) (st : FileStore)
    (hr : Reachable s st) (key : String) (now : Int)
    (kv : String × String × String)
    (hk : key_to_note.find? (fun e => e.1 == key) = some kv) :
    C10Prop s key now kv := by
  have hmem : kv ∈ key_to_note := List.mem_of_find?_eq_some hk
  have hdisp : key_to_note.find? (fun e => e.2.1 == kv.2.1) = some kv := by
    fin_cases hmem <;> rfl
  have hlast : ∀ ui : MusicUI,
      (update_last_note ui kv.2.1).last_played_note =
        kv.2.2 ++ " (" ++ kv.2.1 ++ ")" := by
    intro ui
    unfold update_last_note
    rw [hdisp]
  unfold C10Prop on_note_key
  simp only [hk]
  by_cases hb : s.recording_manager.is_recording = true
  · rw [if_pos hb]
    obtain ⟨t0, hst, ht0⟩ := (reachable_inv hr).2 hb
    have hadd : add_note s.recording_manager kv.2.1 now =
        { s.recording_manager with current_recording :=
            s.recording_manager.current_recording ++ [(kv.2.1, now - t0)] } := by
      unfold add_note
      rw [hst]
      simp [hb, ht0.ne', hst.symm]
    refine ⟨rfl, update_last_note_mode _ _, hlast s.ui,
      fun _ => ⟨t0, hst, ?_⟩, fun hf => by simp [hf] at hb⟩
    rw [hadd]
  · rw [if_neg hb]
    exact ⟨rfl, update_last_note_mode _ _, hlast s.ui,
      fun ht => absurd ht hb, fun _ => rfl⟩

/-- Witness for C10 at the reachable recording-mode state `sRec2` and key
`s` (note `re`). -/
theorem C10_note_key_ignores_mode_witness :
    Reachable sRec2 [] ∧
    key_to_note.find? (fun e => e.1 == ("s" : String)) = some ("s", "re", "Re") ∧
    C10Prop sRec2 ("s") 5 ("s", "re", "Re") :=
  ⟨sRec2_reachable, by decide,
   C10_note_key_ignores_mode sRec2 [] sRec2_reachable ("s") 5
     ("s", "re", "Re") (by decide)⟩

end Sargam
